import Mathlib

/-!
# Verification of the `jet` search-and-replace tool

Shallow embedding of `src/main.rs` of NicoNex/jet-rs: a command-line
search-and-replace tool.  The program compiles a regex and an optional glob,
then either processes standard input (when the path argument is `-`) or walks
a directory tree, filtering entries by a hidden-file predicate, the glob, a
depth bound and a non-directory check, and rewrites each selected file by
replacing every non-overlapping match of the regex.

The regex, glob and walkdir crates are external dependencies whose sources are
not part of this repository; they are modelled here by executable Lean
definitions that follow their documented behaviour (noted at each definition).
Everything in `main.rs` itself is translated directly.
-/

/-! ## Substitution primitive

`regex::Regex::replace_all` replaces every non-overlapping match, scanning
left to right and resuming after the end of each match (replacement text is
not rescanned).  We model it for the literal-pattern fragment (a pattern with
no metacharacters and a replacement with no group references), which is the
fragment our concrete runs use.  `skip > 0` means we are still inside a match
whose replacement has already been emitted. -/
def repGo (p r : List Char) : Nat → List Char → List Char
  | _, [] => []
  | k + 1, _ :: t => repGo p r k t
  | 0, c :: t =>
      if !p.isEmpty && p.isPrefixOf (c :: t) then r ++ repGo p r (p.length - 1) t
      else c :: repGo p r 0 t

/-- All-occurrence replacement of the literal pattern `p` by `r` in `s`;
models `re.replace_all(&cnt, replacement)` for a literal pattern.
(An empty pattern behaves differently in the regex crate; every theorem using
this definition has hypotheses that rule the empty pattern out.) -/
def replaceAll (p r s : String) : String := ⟨repGo p.data r.data 0 s.data⟩

/-- Does `p` occur as a contiguous substring of the character list? -/
def containsSub (p : List Char) : List Char → Bool
  | [] => p.isEmpty
  | c :: t => p.isPrefixOf (c :: t) || containsSub p t

/-- Does the text `s` contain an occurrence of the literal pattern `p`? -/
def containsStr (s p : String) : Bool := containsSub p.data s.data

/-! ## File transformer (`process_file` in `main.rs`)

The state of the one file a call touches.  `noOpen` models `File::open`
returning `Err` (the `if let Ok` has no `else` branch), `readErr` models
`read_to_string` failing (I/O error or invalid UTF-8), `text` is a readable
file with the given content. -/
inductive FileState where
  | noOpen
  | readErr (msg : String)
  | text (cnt : String)
deriving DecidableEq

/-- Environment for the write-back path of `process_file`: whether
`File::create` succeeds, whether `write_all` fails (with an error message),
and the bytes left on disk by a failed `write_all` (unspecified prefix of the
intended content; `File::create` has already truncated the file). -/
structure WriteEnv where
  createOk : Bool
  writeErr : Option String
  partialContent : String
deriving DecidableEq

/-- Result of one `process_file` call: the file's state afterwards, what the
call printed to standard output, and what it printed to standard error. -/
structure PFResult where
  file : FileState
  out : String
  err : String
deriving DecidableEq

/-- `{:?}` formatting of a path in the Rust error messages. -/
def quotePath (p : String) : String := "\"" ++ p ++ "\""

/-- Translation of `process_file`.  `subst` stands for
`|s| re.replace_all(s, replacement)` with the compiled regex and the
replacement template baked in. -/
def processFile (subst : String → String) (path : String) (verbose to_stdout : Bool)
    (st : FileState) (env : WriteEnv) : PFResult :=
  match st with
  | .noOpen => ⟨st, "", ""⟩
  | .readErr e =>
      ⟨st, "",
        if verbose then "error: failed to read file " ++ quotePath path ++ ": " ++ e ++ "\n"
        else ""⟩
  | .text cnt =>
      let modified := subst cnt
      if to_stdout then ⟨st, modified ++ "\n", ""⟩
      else if env.createOk then
        match env.writeErr with
        | some e =>
            ⟨.text env.partialContent, "",
              "error: failed to write to file " ++ quotePath path ++ ": " ++ e ++ "\n"⟩
        | none => ⟨.text modified, if verbose then quotePath path ++ " modified\n" else "", ""⟩
      else ⟨st, "", "error: could not override file " ++ quotePath path ++ "\n"⟩

/-- One unit of work handed to the worker pool: a path together with the state
of the file at that path and its write environment. -/
structure FileJob where
  path : String
  st : FileState
  env : WriteEnv

/-- The driver's `for_each` over the selected entries: each file is an
independent unit of work (order across files is not guaranteed by the
program; the list order here is one admissible schedule). -/
def runFiles (subst : String → String) (verbose to_stdout : Bool)
    (jobs : List FileJob) : List PFResult :=
  jobs.map (fun j => processFile subst j.path verbose to_stdout j.st j.env)

/-! ## Stdin transformer (`process_stdin` in `main.rs`) -/

/-- Translation of `process_stdin`: the result is (standard output, standard
error).  `stdinData` is `Ok` with the full stdin text or `Err` with a read
error message.  On success the substituted text is printed with `print!`
(no trailing newline). -/
def processStdin (subst : String → String) (stdinData : Except String String) :
    String × String :=
  match stdinData with
  | .error e => ("", "error: failed to read stdin: " ++ e ++ "\n")
  | .ok cnt => (subst cnt, "")

/-! ## Glob patterns (`glob::Pattern`, external dependency)

Model of the glob crate used by `main.rs` for the `--glob` filter, following
the crate's documented behaviour: `?` matches one character, `*` any sequence,
`**` whole path components, `[...]`/`[!...]` character classes; more than two
consecutive `*`, a misplaced `**` and an unclosed `[` are compile errors. -/
inductive CharSpecifier where
  | singleChar (c : Char)
  | charRange (a b : Char)
deriving DecidableEq

inductive Token where
  | char (c : Char)
  | anyChar
  | anySequence
  | anyRecursiveSequence
  | anyWithin (cs : List CharSpecifier)
  | anyExcept (cs : List CharSpecifier)
deriving DecidableEq

inductive MatchResult where
  | match_
  | subPatternDoesntMatch
  | entirePatternDoesntMatch
deriving DecidableEq

/-- The three matching options of `glob::MatchOptions`. -/
structure MatchOptions where
  caseSensitive : Bool
  requireLiteralSeparator : Bool
  requireLiteralLeadingDot : Bool

/-- `glob::MatchOptions::new()`, the options `Pattern::matches` uses:
case-sensitive, and `*`/`?` may cross `/` and match a leading dot. -/
def defaultMatchOptions : MatchOptions := ⟨true, false, false⟩

/-- `std::path::is_separator` on Unix. -/
def isSeparator (c : Char) : Bool := c = '/'

def charIsAscii (c : Char) : Bool := c.toNat ≤ 127

/-- The glob crate's `chars_eq` (Unix: no special casing of separators). -/
def charsEq (a b : Char) (caseSensitive : Bool) : Bool :=
  if !caseSensitive && charIsAscii a && charIsAscii b then a.toLower == b.toLower else a == b

def specMatches (c : Char) (caseSensitive : Bool) : CharSpecifier → Bool
  | .singleChar sc => charsEq c sc caseSensitive
  | .charRange a b =>
      if caseSensitive || !(charIsAscii c) || !(charIsAscii a) || !(charIsAscii b) then
        a ≤ c && c ≤ b
      else
        (a.toLower ≤ c.toLower && c.toLower ≤ b.toLower)
          || (a.toUpper ≤ c.toUpper && c.toUpper ≤ b.toUpper)

def matchesSpecifiers (c : Char) (cs : List CharSpecifier) (caseSensitive : Bool) : Bool :=
  cs.any (specMatches c caseSensitive)

/-- Whether a single non-wildcard token accepts character `c`; the
separator/leading-dot guards apply to `?` and the character classes but not to
literal characters, as in the crate's `matches_from`. -/
def tokenMatchesOne (o : MatchOptions) (t : Token) (c : Char) (isSep followsSep : Bool) : Bool :=
  match t with
  | .char c2 => charsEq c c2 o.caseSensitive
  | .anyChar =>
      if (o.requireLiteralSeparator && isSep)
          || (followsSep && o.requireLiteralLeadingDot && c = '.') then false
      else true
  | .anyWithin cs =>
      if (o.requireLiteralSeparator && isSep)
          || (followsSep && o.requireLiteralLeadingDot && c = '.') then false
      else matchesSpecifiers c cs o.caseSensitive
  | .anyExcept cs =>
      if (o.requireLiteralSeparator && isSep)
          || (followsSep && o.requireLiteralLeadingDot && c = '.') then false
      else !(matchesSpecifiers c cs o.caseSensitive)
  | _ => false

mutual
/-- The crate's `Pattern::matches_from` loop: match the token list against the
remaining characters; `fs` is `follows_separator`. -/
def matchFrom (o : MatchOptions) (fs : Bool) : List Token → List Char → MatchResult
  | [], file => if file.isEmpty then .match_ else .subPatternDoesntMatch
  | .anySequence :: ts, file =>
      (match matchFrom o fs ts file with
       | .subPatternDoesntMatch => starLoop o false ts fs file
       | m => m)
  | .anyRecursiveSequence :: ts, file =>
      (match matchFrom o fs ts file with
       | .subPatternDoesntMatch => starLoop o true ts fs file
       | m => m)
  | t :: ts, file =>
      match file with
      | [] => .entirePatternDoesntMatch
      | c :: rest =>
          if tokenMatchesOne o t c (isSeparator c) fs then matchFrom o (isSeparator c) ts rest
          else .subPatternDoesntMatch
termination_by ts file => (ts.length, file.length, 1)

/-- The `while let Some(c) = file.next()` loop inside the wildcard case of
`matches_from`: keep consuming characters and retrying the remaining tokens;
when the file is exhausted the outer loop continues with the remaining tokens
against the empty file. -/
def starLoop (o : MatchOptions) (recursive : Bool) (ts : List Token) (fs : Bool) :
    List Char → MatchResult
  | [] => matchFrom o fs ts []
  | c :: rest =>
      if fs && o.requireLiteralLeadingDot && c = '.' then .subPatternDoesntMatch
      else
        if recursive && !(isSeparator c) then starLoop o recursive ts (isSeparator c) rest
        else if !recursive && o.requireLiteralSeparator && isSeparator c then
          .subPatternDoesntMatch
        else
          match matchFrom o (isSeparator c) ts rest with
          | .subPatternDoesntMatch => starLoop o recursive ts (isSeparator c) rest
          | m => m
termination_by file => (ts.length + 1, file.length, 0)
end

/-- `Pattern::matches`: full-string match with the default options, starting
with `follows_separator = true`. -/
def patMatches (toks : List Token) (s : String) : Bool :=
  decide (matchFrom defaultMatchOptions true toks s.data = .match_)

/-- The crate's `parse_char_specifiers`: `a-b` inside brackets is a range when
a character follows the dash, otherwise characters are taken singly. -/
def parseCharSpecifiers : List Char → List CharSpecifier
  | [] => []
  | a :: '-' :: b :: rest => .charRange a b :: parseCharSpecifiers rest
  | a :: rest => .singleChar a :: parseCharSpecifiers rest

/-- Number of leading `*` characters. -/
def countStars : List Char → Nat
  | '*' :: rest => countStars rest + 1
  | _ => 0

/-- Split the list at the first `]`: contents before it and remainder after. -/
def findClose : List Char → Option (List Char × List Char)
  | [] => none
  | ']' :: rest => some ([], rest)
  | c :: rest => (findClose rest).map (fun q => (c :: q.1, q.2))

/-- The crate's `Pattern::new` tokenizer; `none` models `Err(PatternError)`.
`prev` is the character before the current position (used by the `**`
placement check).  The fuel argument only bounds the recursion: every step
consumes at least one input character, so `length + 1` fuel never runs out. -/
def globTokenizeF : Nat → Option Char → List Char → Option (List Token)
  | 0, _, _ => none
  | _ + 1, _, [] => some []
  | fuel + 1, _, '?' :: rest => (globTokenizeF fuel (some '?') rest).map (Token.anyChar :: ·)
  | fuel + 1, prev, '*' :: rest =>
      let n := countStars rest + 1
      if n > 2 then none
      else if n = 2 then
        if prev = none ∨ prev = some '/' then
          match rest.drop 1 with
          | '/' :: rest2 =>
              (globTokenizeF fuel (some '/') rest2).map (Token.anyRecursiveSequence :: ·)
          | [] => some [Token.anyRecursiveSequence]
          | _ => none
        else none
      else (globTokenizeF fuel (some '*') rest).map (Token.anySequence :: ·)
  | fuel + 1, _, '[' :: '!' :: c0 :: c1 :: rest =>
      (match findClose (c1 :: rest) with
       | some (content, rest2) =>
           (globTokenizeF fuel (some ']') rest2).map
             (Token.anyExcept (parseCharSpecifiers (c0 :: content)) :: ·)
       | none => none)
  | fuel + 1, _, '[' :: c0 :: rest =>
      (match findClose rest with
       | some (content, rest2) =>
           (globTokenizeF fuel (some ']') rest2).map
             (Token.anyWithin (parseCharSpecifiers (c0 :: content)) :: ·)
       | none => none)
  | _ + 1, _, ['['] => none
  | fuel + 1, _, c :: rest => (globTokenizeF fuel (some c) rest).map (Token.char c :: ·)

/-- `glob::Pattern::new`: `some` tokens on success, `none` on a syntax error. -/
def globNew (s : String) : Option (List Token) :=
  globTokenizeF (s.length + 1) none s.data

/-! ## Directory traversal and the entry selector (`walkdir` + `main`) -/

/-- A filesystem tree to traverse; names are single path components. -/
inductive FTree where
  | file (name : String)
  | dir (name : String) (children : List FTree)

/-- A `walkdir::DirEntry` as far as the program inspects it: the path
components from (and including) the traversal root, the depth relative to the
root (root itself has depth 0), and whether it is a directory. -/
structure Entry where
  comps : List String
  depth : Nat
  isDir : Bool
deriving DecidableEq

/-- `entry.path().to_string_lossy()`: components joined by `/`. -/
def pathString (e : Entry) : String := String.intercalate "/" e.comps

/-- `entry.file_name()`: the last path component. -/
def entryFileName (e : Entry) : String := e.comps.getLastD ""

/-- `s.starts_with(".")` on the file name, expressed on the character list so
that it evaluates by kernel reduction. -/
def startsWithDot (s : String) : Bool :=
  match s.data with
  | [] => false
  | c :: _ => c = '.'

/-- `is_hidden` from `main.rs`: the file name starts with a dot. -/
def isHiddenE (e : Entry) : Bool := startsWithDot (entryFileName e)

mutual
/-- `WalkDir::new(root).into_iter().filter_entry(pred)`: depth-first,
directories before their contents; the predicate is applied to every entry
including the root, and an entry failing it is neither yielded nor (for a
directory) descended into. -/
def walkFE (pred : Entry → Bool) : FTree → List String → Nat → List Entry
  | .file n, pre, d =>
      let e : Entry := ⟨pre ++ [n], d, false⟩
      if pred e then [e] else []
  | .dir n cs, pre, d =>
      let e : Entry := ⟨pre ++ [n], d, true⟩
      if pred e then e :: walkForest pred cs (pre ++ [n]) (d + 1) else []

def walkForest (pred : Entry → Bool) : List FTree → List String → Nat → List Entry
  | [], _, _ => []
  | t :: ts, pre, d => walkFE pred t pre d ++ walkForest pred ts pre d
end

/-- The entry-selector pipeline of `main`, applied to the tree rooted at the
path argument: `filter_entry(|e| is_hidden(e) || !opts.include_hidden)`, then
the glob filter on the full path, then the depth filter
`opts.depth < 0 || e.depth() <= opts.depth as usize`, then the
non-directory filter.  (The `filter_map(Result::ok)` step drops traversal
errors; the tree here is error-free.) -/
def selectorCandidates (include_hidden : Bool) (toks : List Token) (depth : Int)
    (t : FTree) : List Entry :=
  (((walkFE (fun e => isHiddenE e || !include_hidden) t [] 0).filter
      (fun e => patMatches toks (pathString e))).filter
      (fun e => decide (depth < 0) || decide (e.depth ≤ depth.toNat))).filter
      (fun e => !e.isDir)

/-! ## The driver (`main`) -/

/-- The command-line options, as in the `Options` struct of `main.rs`
(`depth` is an `i32`; `-1`, the default, means unbounded). -/
structure Options where
  pattern : String
  replacement : String
  path : String
  glob : Option String
  to_stdout : Bool
  verbose : Bool
  depth : Int
  include_hidden : Bool

/-- How a run ends: `fatalRegex` models `Regex::new(..).unwrap()` panicking,
`fatalGlob` models `Pattern::new(..).expect(..)` panicking (both non-zero
exits with nothing processed), `stdinRun` carries stdin-mode standard
output/error, and `treeRun` carries the entries handed to the worker pool. -/
inductive RunOutcome where
  | fatalRegex
  | fatalGlob
  | stdinRun (out err : String)
  | treeRun (entries : List Entry)
deriving DecidableEq

/-- Translation of `main`: compile the regex (validity is the `regexValid`
parameter; the compiled matcher and replacement together are `subst`), then
dispatch on `path == "-"` to stdin mode, and only otherwise compile the glob
(default `"*"`) and build the selector pipeline. -/
def mainRun (subst : String → String) (regexValid : Bool) (opts : Options)
    (stdinData : Except String String) (t : FTree) : RunOutcome :=
  if !regexValid then .fatalRegex
  else if opts.path = "-" then
    let p := processStdin subst stdinData
    .stdinRun p.1 p.2
  else
    match globNew (opts.glob.getD "*") with
    | none => .fatalGlob
    | some toks => .treeRun (selectorCandidates opts.include_hidden toks opts.depth t)

/-! ## Helper lemmas -/

/-- Replacement is the identity on text with no occurrence of the pattern. -/
theorem repGo_id_of_not_contains (p r : List Char) (s : List Char)
    (h : containsSub p s = false) : repGo p r 0 s = s := by
  induction s with
  | nil => rfl
  | cons c t ih =>
      rw [containsSub] at h
      simp only [Bool.or_eq_false_iff] at h
      rw [repGo]
      simp [h.1, ih h.2]

/-- String-level version of `repGo_id_of_not_contains`. -/
theorem replaceAll_id_of_not_contains (p r s : String)
    (h : containsStr s p = false) : replaceAll p r s = s := by
  unfold replaceAll
  rw [repGo_id_of_not_contains p.data r.data s.data h]

/-- Under the default options a bare `*` consumes any remaining characters. -/
theorem starLoop_nil_default (file : List Char) (fs : Bool) :
    starLoop defaultMatchOptions false [] fs file = .match_ := by
  induction file generalizing fs with
  | nil => simp [starLoop, matchFrom]
  | cons c rest ih =>
      have h1 : starLoop defaultMatchOptions false [] fs (c :: rest) =
          (match matchFrom defaultMatchOptions (isSeparator c) [] rest with
           | .subPatternDoesntMatch => starLoop defaultMatchOptions false [] (isSeparator c) rest
           | m => m) := by
        conv_lhs => rw [starLoop]
        simp [defaultMatchOptions]
      rw [h1]
      cases rest with
      | nil => simp [matchFrom]
      | cons d rest2 => simp [matchFrom, ih]

/-- The single-token pattern `*` matches every string. -/
theorem patMatches_star (s : String) : patMatches [Token.anySequence] s = true := by
  unfold patMatches
  cases h : s.data with
  | nil => simp [matchFrom]
  | cons c rest => simp [matchFrom, starLoop_nil_default]

/-! ## Claims -/

/-- C3: for every substitution primitive and every file content that reads
successfully, the text the File Transformer produces equals the substitution
primitive applied to the content — printed (followed by a newline) in stdout
mode, and written back verbatim in in-place mode. -/
theorem c3_transformer_equals_replace_all (subst : String → String) (path : String)
    (v : Bool) (env : WriteEnv) (cnt : String) :
    (processFile subst path v true (.text cnt) env).out = subst cnt ++ "\n" ∧
    (env.createOk = true → env.writeErr = none →
      (processFile subst path v false (.text cnt) env).file = .text (subst cnt)) := by
  constructor
  · rfl
  · intro hc hw
    simp [processFile, hc, hw]

theorem c3_transformer_equals_replace_all_witness :
    (processFile (replaceAll "a" "b") "f" false true (.text "aa") ⟨true, none, ""⟩).out
      = "bb\n" ∧
    (processFile (replaceAll "a" "b") "f" false false (.text "aa") ⟨true, none, ""⟩).file
      = .text "bb" := by
  have h := c3_transformer_equals_replace_all (replaceAll "a" "b") "f" false ⟨true, none, ""⟩ "aa"
  refine ⟨?_, ?_⟩
  · rw [h.1]; decide
  · rw [h.2 rfl rfl]; decide

/-- C4: in stdout mode (`--print`) the file on disk is never modified — the
file state after `process_file` equals the state before, whatever it was —
and when the read succeeds the transformed text is written to standard output
followed by a trailing newline. -/
theorem c4_stdout_never_mutates_file (subst : String → String) (path : String)
    (v : Bool) (st : FileState) (env : WriteEnv) :
    (processFile subst path v true st env).file = st ∧
    (∀ cnt, st = FileState.text cnt →
      (processFile subst path v true st env).out = subst cnt ++ "\n") := by
  cases st <;> simp [processFile]

theorem c4_stdout_never_mutates_file_witness :
    (processFile (replaceAll "a" "b") "f" false true (.text "aa") ⟨true, none, ""⟩).file
      = .text "aa" ∧
    (processFile (replaceAll "a" "b") "f" false true (.text "aa") ⟨true, none, ""⟩).out
      = "bb\n" := by
  have h := c4_stdout_never_mutates_file (replaceAll "a" "b") "f" false (.text "aa")
    ⟨true, none, ""⟩
  refine ⟨h.1, ?_⟩
  rw [h.2 "aa" rfl]; decide

/-- C7 counterexample: a failure to open the file for reading is skipped
silently even with verbosity on — nothing is written to the diagnostic
stream, contradicting the claim that read-step failures are reported when
verbose. -/
theorem c7_cex_open_failure_silent :
    processFile (replaceAll "a" "b") "f" true false FileState.noOpen ⟨true, none, ""⟩
      = ⟨FileState.noOpen, "", ""⟩ := by decide

/-- C7 as amended: an open-for-read failure is skipped silently regardless of
verbosity; a failure of the read itself is reported (path and error message)
exactly when verbosity is on; in both cases the file is left unchanged and
nothing is printed to standard output, and the run continues with the
remaining files (each job in the worker list is processed independently). -/
theorem c7_amended_read_failures (subst : String → String) (path : String)
    (v ts : Bool) (env : WriteEnv) (e : String) (j : FileJob) (jobs : List FileJob) :
    processFile subst path v ts FileState.noOpen env = ⟨FileState.noOpen, "", ""⟩ ∧
    processFile subst path v ts (FileState.readErr e) env =
      ⟨FileState.readErr e, "",
        if v then "error: failed to read file " ++ quotePath path ++ ": " ++ e ++ "\n"
        else ""⟩ ∧
    runFiles subst v ts (j :: jobs) =
      processFile subst j.path v ts j.st j.env :: runFiles subst v ts jobs :=
  ⟨rfl, rfl, rfl⟩

/-- C9 counterexample: pattern `ab`, replacement `a` (which contains no
occurrence of the pattern), content `abb`: the first run produces `ab`, and a
second run changes it again to `a` — the transformation is not idempotent as
claimed, because a replacement can complete a new match with adjacent text. -/
theorem c9_cex_not_idempotent :
    containsStr "a" "ab" = false ∧
    replaceAll "ab" "a" "abb" = "ab" ∧
    replaceAll "ab" "a" (replaceAll "ab" "a" "abb") ≠ replaceAll "ab" "a" "abb" := by
  decide

/-- C9 as amended: if the once-transformed text contains no occurrence of the
pattern (which the claimed hypothesis — the replacement containing no
occurrence — does not guarantee), a second run produces no further change. -/
theorem c9_amended_idempotent_on_match_free_result (p r s : String)
    (h : containsStr (replaceAll p r s) p = false) :
    replaceAll p r (replaceAll p r s) = replaceAll p r s :=
  replaceAll_id_of_not_contains p r _ h

theorem c9_amended_idempotent_on_match_free_result_witness :
    containsStr (replaceAll "x" "y" "x") "x" = false ∧
    replaceAll "x" "y" (replaceAll "x" "y" "x") = replaceAll "x" "y" "x" :=
  ⟨by decide, c9_amended_idempotent_on_match_free_result "x" "y" "x" (by decide)⟩

/-- C10: on content with no match of the pattern the substitution is the
identity, so in-place processing (create and write both succeeding) leaves
the file content byte-identical to what was read. -/
theorem c10_inplace_identity_on_match_free (p r path cnt : String) (v : Bool)
    (env : WriteEnv) (h : containsStr cnt p = false) (hc : env.createOk = true)
    (hw : env.writeErr = none) :
    (processFile (replaceAll p r) path v false (.text cnt) env).file = .text cnt := by
  simp [processFile, hc, hw, replaceAll_id_of_not_contains p r cnt h]

theorem c10_inplace_identity_on_match_free_witness :
    containsStr "zzz" "a" = false ∧
    (processFile (replaceAll "a" "b") "f" false false (.text "zzz") ⟨true, none, ""⟩).file
      = .text "zzz" :=
  ⟨by decide,
    c10_inplace_identity_on_match_free "a" "b" "f" "zzz" false ⟨true, none, ""⟩
      (by decide) rfl rfl⟩

/-- C8: with path `-` the run is stdin mode, bypassing the entry selector and
the glob/depth/hidden options entirely (the outcome does not depend on the
tree or on any of them): on read success exactly the substituted text is
written to standard output with no trailing newline added; on read failure
the error is reported to the diagnostic stream and that is the entire run. -/
theorem c8_stdin_mode_bypasses_selector (subst : String → String) (opts : Options)
    (stdinData : Except String String) (t : FTree) (h : opts.path = "-") :
    mainRun subst true opts stdinData t =
      RunOutcome.stdinRun
        (match stdinData with | .ok c => subst c | .error _ => "")
        (match stdinData with
         | .ok _ => ""
         | .error e => "error: failed to read stdin: " ++ e ++ "\n") := by
  cases stdinData <;> simp [mainRun, h, processStdin]

theorem c8_stdin_mode_bypasses_selector_witness :
    mainRun (replaceAll "hello" "world") true
      ⟨"hello", "world", "-", none, false, false, -1, false⟩
      (Except.ok "hello") (FTree.file "x") = RunOutcome.stdinRun "world" "" := by
  have h := c8_stdin_mode_bypasses_selector (replaceAll "hello" "world")
    ⟨"hello", "world", "-", none, false, false, -1, false⟩ (Except.ok "hello")
    (FTree.file "x") rfl
  rw [h]; decide

/-- C6 counterexample: with path `-` and the syntactically invalid glob `***`
the process does not terminate with a fatal error — the glob is compiled only
after the stdin dispatch, so the run proceeds in stdin mode and succeeds. -/
theorem c6_cex_stdin_mode_ignores_invalid_glob :
    globNew "***" = none ∧
    mainRun (replaceAll "a" "b") true ⟨"a", "b", "-", some "***", false, false, -1, false⟩
      (Except.ok "hello") (FTree.file "x") = RunOutcome.stdinRun "hello" "" := by
  refine ⟨by decide, by decide⟩

/-- C6 as amended: an invalid glob is fatal before traversal and before any
file I/O only in tree mode (path not `-`): the run ends as `fatalGlob`, with
no entry selected and no file processed.  (With path `-` the glob string is
never compiled; see the counterexample.) -/
theorem c6_amended_glob_fatal_in_tree_mode (subst : String → String) (opts : Options)
    (stdinData : Except String String) (t : FTree)
    (h1 : ¬ opts.path = "-") (h2 : globNew (opts.glob.getD "*") = none) :
    mainRun subst true opts stdinData t = RunOutcome.fatalGlob := by
  simp [mainRun, h1, h2]

theorem c6_amended_glob_fatal_in_tree_mode_witness :
    mainRun (replaceAll "a" "b") true ⟨"a", "b", "x", some "***", false, false, -1, false⟩
      (Except.ok "") (FTree.file "x") = RunOutcome.fatalGlob :=
  c6_amended_glob_fatal_in_tree_mode (replaceAll "a" "b")
    ⟨"a", "b", "x", some "***", false, false, -1, false⟩ (Except.ok "") (FTree.file "x")
    (by decide) (by decide)

/-- C2: when no `--glob` is supplied the driver compiles the default pattern
`*`, which is a single any-sequence wildcard; that pattern matches every path
string (separators included, since `Pattern::matches` does not require
literal separators), so the glob filter passes every traversed entry and the
selector pipeline degenerates to the hidden, depth and directory filters. -/
theorem c2_default_glob_matches_everything :
    globNew "*" = some [Token.anySequence] ∧
    (∀ s : String, patMatches [Token.anySequence] s = true) ∧
    (∀ (include_hidden : Bool) (n : Int) (t : FTree),
      selectorCandidates include_hidden [Token.anySequence] n t =
        ((walkFE (fun e => isHiddenE e || !include_hidden) t [] 0).filter
          (fun e => decide (n < 0) || decide (e.depth ≤ n.toNat))).filter
          (fun e => !e.isDir)) := by
  refine ⟨by decide, patMatches_star, ?_⟩
  intro inc n t
  unfold selectorCandidates
  rw [List.filter_eq_self.mpr (fun e _ => patMatches_star (pathString e))]

/-- C1 counterexample (hidden-filter inversion): with `include_hidden = false`
(and default glob, unbounded depth) the selector yields the dot-file `.hid`
inside directory `r` — a candidate with a dot-prefixed path component — and
with `include_hidden = true` the very same dot-file, which satisfies the
glob, depth and non-directory filters, is not yielded at all (the non-hidden
root is pruned by `filter_entry`).  Both halves of the claim fail: the
predicate `is_hidden(e) || !opts.include_hidden` is inverted. -/
theorem c1_cex_hidden_filter_inverted :
    selectorCandidates false [Token.anySequence] (-1) (FTree.dir "r" [FTree.file ".hid"])
      = [⟨["r", ".hid"], 1, false⟩] ∧
    selectorCandidates true [Token.anySequence] (-1) (FTree.dir "r" [FTree.file ".hid"])
      = [] ∧
    isHiddenE ⟨["r", ".hid"], 1, false⟩ = true := by
  have hglob : ∀ l : List Entry,
      l.filter (fun e => patMatches [Token.anySequence] (pathString e)) = l :=
    fun l => List.filter_eq_self.mpr (fun e _ => patMatches_star (pathString e))
  refine ⟨?_, ?_, by decide⟩
  · unfold selectorCandidates
    rw [hglob]
    decide
  · unfold selectorCandidates
    rw [hglob]
    decide

/-- C5 counterexample: with `level = 0` on a directory `r` containing the
plain file `a` the selector yields nothing — the direct child `a` sits at
depth 1 and is rejected by `e.depth() <= 0`, while the claim says exactly the
direct children become candidates; the same child is yielded at `level = 1`. -/
theorem c5_cex_level_zero_excludes_children :
    selectorCandidates false [Token.anySequence] 0 (FTree.dir "r" [FTree.file "a"]) = [] ∧
    selectorCandidates false [Token.anySequence] 1 (FTree.dir "r" [FTree.file "a"])
      = [⟨["r", "a"], 1, false⟩] := by
  have hglob : ∀ l : List Entry,
      l.filter (fun e => patMatches [Token.anySequence] (pathString e)) = l :=
    fun l => List.filter_eq_self.mpr (fun e _ => patMatches_star (pathString e))
  refine ⟨?_, ?_⟩
  · unfold selectorCandidates
    rw [hglob]
    decide
  · unfold selectorCandidates
    rw [hglob]
    decide

/-- C5 as amended: the depth filter keeps exactly the entries whose walkdir
depth (root = depth 0, direct children = depth 1) is at most `level` when
`level` is non-negative, and is vacuous for negative `level`: an entry is a
candidate at depth bound `n` iff it is a candidate with the bound removed
(`level = -1`) and `n < 0 ∨ depth ≤ n`.  In particular `level = 0` keeps
only the root entry itself, so a directory root yields no candidates and
direct children require `level ≥ 1`. -/
theorem c5_amended_depth_bound (include_hidden : Bool) (toks : List Token) (n : Int)
    (t : FTree) (e : Entry) :
    e ∈ selectorCandidates include_hidden toks n t ↔
      e ∈ selectorCandidates include_hidden toks (-1) t ∧ (n < 0 ∨ e.depth ≤ n.toNat) := by
  unfold selectorCandidates
  simp only [List.mem_filter, Bool.or_eq_true, decide_eq_true_eq, Bool.not_eq_true']
  constructor
  · rintro ⟨⟨⟨hw, hg⟩, hdep⟩, hdir⟩
    exact ⟨⟨⟨⟨hw, hg⟩, Or.inl (by norm_num)⟩, hdir⟩, hdep⟩
  · rintro ⟨⟨⟨⟨hw, hg⟩, _⟩, hdir⟩, hdep⟩
    exact ⟨⟨⟨hw, hg⟩, hdep⟩, hdir⟩
